import Mathlib

/-!
Verification of the device/surface capability negotiation and selection
pipeline of the Graphics repository (a Vulkan/GLFW bootstrap).

The relevant source logic is embedded shallowly:
- `minSwapImgs`, `pickSwapSurfaceFormat`, `pickSwapExtent` from
  src/src/Renderer.cpp (free helper functions);
- the per-device scoring and the multimap-based selection of
  `Renderer::pickPhysicalDevice` (identical in src/src/Renderer.cpp and
  src/unnamed/part_002) as `scoreDevice` / `pickPhysicalDevice`;
- the queue-family scan of `Renderer::createLogicalDevice` from
  src/unnamed/part_002 (the revision with the separate-role fallback,
  which the specification adopts) as `selectQueueFamilies`;
- the top-level entry point from src/unnamed/part_000 as `mainEntry`.

Machine integers (uint32_t) are modelled as `Nat`, with an explicit
`% 2^32` where the source accumulates into a uint32_t register and
overflow is possible (the device score).
-/

namespace Graphics

/-- 2^32, the modulus of the C++ `uint32_t` arithmetic. -/
def UINT32_MOD : Nat := 4294967296

/-- `VK_API_VERSION_1_4` = VK_MAKE_API_VERSION(0,1,4,0) = (1 <<< 22) + (4 <<< 12). -/
def vkApiVersion14 : Nat := 4210688

/-- Bit value of `vk::QueueFlagBits::eGraphics` (0x00000001). -/
def eGraphicsFlag : Nat := 1

/-- Enum value of `vk::Format::eB8G8R8A8Srgb` (VK_FORMAT_B8G8R8A8_SRGB = 50). -/
def eB8G8R8A8Srgb : Nat := 50

/-- Enum value of `vk::ColorSpaceKHR::eSrgbNonlinear` (VK_COLOR_SPACE_SRGB_NONLINEAR_KHR = 0). -/
def eSrgbNonlinear : Nat := 0

/-- The `0xFFFFFFFF` sentinel that marks an undefined surface extent. -/
def extentSentinel : Nat := 4294967295

/-- `vk::Extent2D`: a width/height pair of uint32 values. -/
structure Extent2D where
  width : Nat
  height : Nat
deriving DecidableEq

/-- `vk::SurfaceFormatKHR`: a pixel format plus a color space (both enum codes). -/
structure SurfaceFormat where
  format : Nat
  colorSpace : Nat
deriving DecidableEq

/-- The fields of `vk::SurfaceCapabilitiesKHR` the source reads. -/
structure SurfaceCapabilities where
  minImageCount : Nat
  maxImageCount : Nat
  currentExtent : Extent2D
  minImageExtent : Extent2D
  maxImageExtent : Extent2D
deriving DecidableEq

/-- One queue family of a device: its `queueFlags` bitmask together with the
result of the per-index `getSurfaceSupportKHR` presentation-support query. -/
structure QueueFamily where
  queueFlags : Nat
  presentSupport : Bool
deriving DecidableEq

/-- `vk::PhysicalDeviceType`; the source only tests for `eDiscreteGpu`. -/
inductive PhysicalDeviceType where
  | other
  | integratedGpu
  | discreteGpu
  | virtualGpu
  | cpu
deriving DecidableEq

/-- The field of `vk::PhysicalDeviceLimits` the source reads. -/
structure PhysicalDeviceLimits where
  maxImageDimension2D : Nat
deriving DecidableEq

/-- The fields of `vk::PhysicalDeviceProperties` the source reads. -/
structure PhysicalDeviceProperties where
  deviceType : PhysicalDeviceType
  apiVersion : Nat
  deviceName : String
  limits : PhysicalDeviceLimits
deriving DecidableEq

/-- The field of `vk::PhysicalDeviceFeatures` the source reads. -/
structure PhysicalDeviceFeatures where
  geometryShader : Bool
deriving DecidableEq

/-- A physical-device candidate: the handle together with everything the
selection loop queries about it (properties, features, supported device
extension names, queue families). -/
structure PhysicalDevice where
  properties : PhysicalDeviceProperties
  features : PhysicalDeviceFeatures
  extensions : List String
  queueFamilies : List QueueFamily
deriving DecidableEq

/-- `Renderer::device_extensions` = { vk::KHRSwapchainExtensionName }. -/
def deviceExtensions : List String := ["VK_KHR_swapchain"]

/-- Embeds `minSwapImgs` (src/src/Renderer.cpp): at least 3 and at least the
reported minimum, clamped down to a positive reported maximum. -/
def minSwapImgs (capabilities : SurfaceCapabilities) : Nat :=
  let max_cap := capabilities.maxImageCount
  let min_cap := capabilities.minImageCount
  let min_img := max 3 min_cap
  if 0 < max_cap ∧ max_cap < min_img then max_cap else min_img

/-- The predicate of the `find_if` in `pickSwapSurfaceFormat`: 8-bit BGRA sRGB
format with sRGB non-linear color space. -/
def isPreferredSurfaceFormat (fmt : SurfaceFormat) : Bool :=
  fmt.format == eB8G8R8A8Srgb && fmt.colorSpace == eSrgbNonlinear

/-- Embeds `pickSwapSurfaceFormat` (src/src/Renderer.cpp): the first matching
preferred format if any, else the first reported format. The source asserts
the list is non-empty; the `[]` arm is outside the asserted domain. -/
def pickSwapSurfaceFormat (available : List SurfaceFormat) : SurfaceFormat :=
  match available.find? isPreferredSurfaceFormat with
  | some fmt => fmt
  | none =>
    match available with
    | [] => { format := 0, colorSpace := 0 }
    | fmt :: _ => fmt

/-- `std::clamp(v, lo, hi)`: `lo` if `v < lo`, else `hi` if `hi < v`, else `v`. -/
def stdClamp (v lo hi : Nat) : Nat :=
  if v < lo then lo else if hi < v then hi else v

/-- Embeds `pickSwapExtent` (src/src/Renderer.cpp). The live framebuffer size
(from `glfwGetFramebufferSize`) is passed as a width/height pair. The source
tests only `currentExtent.width` against `0xFFFFFFFF`. -/
def pickSwapExtent (framebuffer : Nat × Nat) (capabilities : SurfaceCapabilities) : Extent2D :=
  if capabilities.currentExtent.width ≠ extentSentinel then
    capabilities.currentExtent
  else
    { width := stdClamp framebuffer.1 capabilities.minImageExtent.width
        capabilities.maxImageExtent.width,
      height := stdClamp framebuffer.2 capabilities.minImageExtent.height
        capabilities.maxImageExtent.height }

/-- Embeds the per-device scoring of `Renderer::pickPhysicalDevice`
(src/src/Renderer.cpp lines 279-309): discrete-GPU bonus plus the maximum 2D
image dimension, accumulated in a uint32_t, then zeroed if the geometry-shader
feature, the minimum API version, a graphics-capable queue family, or any
required device extension is missing. -/
def scoreDevice (device : PhysicalDevice) : Nat :=
  let score1 := if device.properties.deviceType = PhysicalDeviceType.discreteGpu then 1000 else 0
  let score2 := (score1 + device.properties.limits.maxImageDimension2D) % UINT32_MOD
  let score3 := if device.features.geometryShader = false then 0 else score2
  let score4 := if device.properties.apiVersion < vkApiVersion14 then 0 else score3
  let score5 :=
    if device.queueFamilies.all (fun family => family.queueFlags &&& eGraphicsFlag == 0) then 0
    else score4
  let score6 :=
    if deviceExtensions.any
        (fun required => device.extensions.all (fun supported => supported != required)) then 0
    else score5
  score6

/-- A fully capable discrete-GPU candidate (all hard requirements met),
parameterised by its reported name and maximum 2D image dimension. -/
def mkDevice (name : String) (dim : Nat) : PhysicalDevice :=
  { properties :=
      { deviceType := PhysicalDeviceType.discreteGpu
        apiVersion := vkApiVersion14
        deviceName := name
        limits := { maxImageDimension2D := dim } }
    features := { geometryShader := true }
    extensions := ["VK_KHR_swapchain"]
    queueFamilies := [{ queueFlags := 1, presentSupport := true }] }

/-- A candidate identical to `mkDevice "igpu" 100` except that it lacks the
geometry-shader feature. -/
def deviceNoGeometry : PhysicalDevice :=
  { mkDevice "igpu" 100 with features := { geometryShader := false } }

/-- `mkDevice` with the maximum 2D image dimension replaced. -/
def withDimension (device : PhysicalDevice) (dim : Nat) : PhysicalDevice :=
  { device with
      properties :=
        { device.properties with limits := { maxImageDimension2D := dim } } }

/-- The two failure modes of `Renderer::pickPhysicalDevice`: the enumeration
returned no devices at all ("No physical devices available"), or every device
scored zero ("No suitable physical device available"). -/
inductive PickDeviceError where
  | noPhysicalDevices
  | noSuitableDevice
deriving DecidableEq

/-- Insertion into the `std::multimap<uint32_t, PhysicalDevice>` ordered by
key: a new entry is placed before the first strictly greater key, hence at
the upper bound of the range of equal keys (the C++11 `insert` contract). -/
def scoredInsert (k : Nat) (v : PhysicalDevice) :
    List (Nat × PhysicalDevice) → List (Nat × PhysicalDevice)
  | [] => [(k, v)]
  | kv0 :: rest => if k < kv0.1 then (k, v) :: kv0 :: rest else kv0 :: scoredInsert k v rest

/-- The body of the device loop in `Renderer::pickPhysicalDevice`: score the
device, skip it if the score is zero, otherwise insert it into the multimap. -/
def pickStep (scored : List (Nat × PhysicalDevice)) (device : PhysicalDevice) :
    List (Nat × PhysicalDevice) :=
  if scoreDevice device = 0 then scored else scoredInsert (scoreDevice device) device scored

/-- Embeds `Renderer::pickPhysicalDevice` (src/src/Renderer.cpp lines
265-328): error on an empty enumeration, build the score-keyed multimap,
error if it stays empty, else take `rbegin()->second` (the last entry,
i.e. the greatest key). -/
def pickPhysicalDevice (devices : List PhysicalDevice) : Except PickDeviceError PhysicalDevice :=
  match devices with
  | [] => Except.error PickDeviceError.noPhysicalDevices
  | _ :: _ =>
    match (devices.foldl pickStep []).getLast? with
    | none => Except.error PickDeviceError.noSuitableDevice
    | some kv => Except.ok kv.2

/-- `bool(queueFlags & vk::QueueFlagBits::eGraphics)`. -/
def hasGraphics (family : QueueFamily) : Bool :=
  family.queueFlags &&& eGraphicsFlag != 0

/-- The two failure modes of the queue-family scan in
`Renderer::createLogicalDevice` (src/unnamed/part_002). -/
inductive QueueSelectionError where
  | noGraphicsQueue
  | noPresentationQueue
deriving DecidableEq

/-- The scan loop of `Renderer::createLogicalDevice` (src/unnamed/part_002
lines 561-574): break with a combined family, else record the first
graphics-only and first present-only families, using `maxIdx` as the
"not found yet" sentinel. -/
def findQueueLoop : List QueueFamily → Nat → Nat → Nat → Nat → Nat × Nat
  | [], _, _, gfxIdx, presIdx => (gfxIdx, presIdx)
  | family :: rest, i, maxIdx, gfxIdx, presIdx =>
    let validGfx := hasGraphics family
    let validPres := family.presentSupport
    if validGfx && validPres then (i, i)
    else if validGfx && (gfxIdx == maxIdx) then findQueueLoop rest (i + 1) maxIdx i presIdx
    else if validPres && (presIdx == maxIdx) then findQueueLoop rest (i + 1) maxIdx gfxIdx i
    else findQueueLoop rest (i + 1) maxIdx gfxIdx presIdx

/-- Embeds the queue-family selection of `Renderer::createLogicalDevice`
(src/unnamed/part_002 lines 552-581), the operation the specification calls
`selectQueueFamilies`: run the scan, then fail if the graphics index (first)
or the presentation index (second) is still the sentinel. -/
def selectQueueFamilies (families : List QueueFamily) :
    Except QueueSelectionError (Nat × Nat) :=
  let maxIdx := families.length
  let idxs := findQueueLoop families 0 maxIdx maxIdx maxIdx
  if idxs.1 = maxIdx then Except.error QueueSelectionError.noGraphicsQueue
  else if idxs.2 = maxIdx then Except.error QueueSelectionError.noPresentationQueue
  else Except.ok idxs

/-- Outcome of `Renderer::run` as observed by `main`: normal completion, or
an exception carrying a message. -/
inductive RunOutcome where
  | success : RunOutcome
  | failure : String → RunOutcome
deriving DecidableEq

/-- Observable result of the process: exit code and lines on the error stream. -/
structure ProcessExit where
  code : Nat
  errStream : List String
deriving DecidableEq

/-- `EXIT_SUCCESS`. -/
def EXIT_SUCCESS : Nat := 0

/-- `EXIT_FAILURE`. -/
def EXIT_FAILURE : Nat := 1

/-- Embeds `main` (src/unnamed/part_000): run the renderer inside the sole
try/catch; on an exception print its message to the error stream and return
`EXIT_FAILURE`, otherwise return `EXIT_SUCCESS`. -/
def mainEntry : RunOutcome → ProcessExit
  | RunOutcome.success => { code := EXIT_SUCCESS, errStream := [] }
  | RunOutcome.failure msg => { code := EXIT_FAILURE, errStream := [msg] }

/-! ### Specification-side definitions

These are *not* source translations; they state, independently of the loop
encodings above, what the selection routines are claimed to compute, and the
theorems below compare the source embeddings against them. -/

/-- Index (counting from `i`) of the first list entry satisfying `p`. -/
def firstIdxFrom (p : QueueFamily → Bool) : List QueueFamily → Nat → Option Nat
  | [], _ => none
  | family :: rest, i => if p family then some i else firstIdxFrom p rest (i + 1)

/-- One step of the reference best-device fold: ignore zero scores, and on a
tie with the current best prefer the newer device (this mirrors what the
multimap's upper-bound insertion plus `rbegin()` produce). -/
def bestStep (acc : Option (Nat × PhysicalDevice)) (device : PhysicalDevice) :
    Option (Nat × PhysicalDevice) :=
  if scoreDevice device = 0 then acc
  else
    match acc with
    | none => some (scoreDevice device, device)
    | some kv0 =>
      if kv0.1 ≤ scoreDevice device then some (scoreDevice device, device) else some kv0

/-- Reference selection: the best (score, device) pair, ties to the later one. -/
def selectBestDevice (devices : List PhysicalDevice) : Option (Nat × PhysicalDevice) :=
  devices.foldl bestStep none

/-- Keys of the scored multimap are in non-decreasing order. -/
def KeysSorted : List (Nat × PhysicalDevice) → Prop
  | [] => True
  | kv :: rest => (∀ kv2 ∈ rest, kv.1 ≤ kv2.1) ∧ KeysSorted rest

/-- A queue family supporting presentation but not graphics. -/
def presentOnlyFamily : QueueFamily := { queueFlags := 0, presentSupport := true }

/-- A queue family supporting graphics but not presentation. -/
def graphicsOnlyFamily : QueueFamily := { queueFlags := 1, presentSupport := false }

/-- A queue family supporting both graphics and presentation. -/
def combinedFamily : QueueFamily := { queueFlags := 1, presentSupport := true }

/-- Surface capabilities with the given image-count bounds and zeroed extents. -/
def capsMinMax (minCount maxCount : Nat) : SurfaceCapabilities :=
  { minImageCount := minCount, maxImageCount := maxCount,
    currentExtent := { width := 0, height := 0 },
    minImageExtent := { width := 0, height := 0 },
    maxImageExtent := { width := 0, height := 0 } }

/-- Surface capabilities reporting the undefined-extent sentinel with the
extent bounds (500,500)-(1000,1000). -/
def capsUndefinedExtent : SurfaceCapabilities :=
  { minImageCount := 0, maxImageCount := 0,
    currentExtent := { width := extentSentinel, height := extentSentinel },
    minImageExtent := { width := 500, height := 500 },
    maxImageExtent := { width := 1000, height := 1000 } }

/-- Surface capabilities whose current extent has an ordinary width but the
sentinel value as its height component. -/
def capsMixedExtent : SurfaceCapabilities :=
  { minImageCount := 0, maxImageCount := 0,
    currentExtent := { width := 300, height := extentSentinel },
    minImageExtent := { width := 0, height := 0 },
    maxImageExtent := { width := 1000, height := 1000 } }

end Graphics

deriving instance DecidableEq for Except

namespace Graphics

/-! ### Theorems -/

/-- C7: `minSwapImgs` returns the maximum of 3 and the reported minimum image
count, clamped down to the reported maximum when that maximum is positive and
lower; in particular min=2,max=2 yields 2 and min=1,max=0 yields 3. -/
theorem minSwapImgs_spec (capabilities : SurfaceCapabilities) :
    minSwapImgs capabilities =
      (if capabilities.maxImageCount = 0 then max 3 capabilities.minImageCount
       else min (max 3 capabilities.minImageCount) capabilities.maxImageCount)
    ∧ minSwapImgs (capsMinMax 2 2) = 2
    ∧ minSwapImgs (capsMinMax 1 0) = 3 := by
  refine ⟨?_, by decide, by decide⟩
  simp only [minSwapImgs]
  split_ifs <;> omega

/-- C5: `pickSwapSurfaceFormat` returns the 8-bit BGRA sRGB / sRGB-nonlinear
entry whenever one occurs anywhere in the list, and otherwise returns the
first element of the (non-empty) list. -/
theorem pickSwapSurfaceFormat_spec (available : List SurfaceFormat) :
    (({ format := eB8G8R8A8Srgb, colorSpace := eSrgbNonlinear } : SurfaceFormat) ∈ available →
      pickSwapSurfaceFormat available =
        { format := eB8G8R8A8Srgb, colorSpace := eSrgbNonlinear })
    ∧ (∀ fmt rest, available = fmt :: rest →
        ({ format := eB8G8R8A8Srgb, colorSpace := eSrgbNonlinear } : SurfaceFormat) ∉ available →
        pickSwapSurfaceFormat available = fmt) := by
  constructor
  · intro hmem
    rcases hf : available.find? isPreferredSurfaceFormat with _ | fmt
    · exact absurd (by decide)
        (List.find?_eq_none.mp hf
          ({ format := eB8G8R8A8Srgb, colorSpace := eSrgbNonlinear } : SurfaceFormat) hmem)
    · have hpref := List.find?_some hf
      have hfmt : fmt = { format := eB8G8R8A8Srgb, colorSpace := eSrgbNonlinear } := by
        cases fmt with
        | mk f c =>
          simp only [isPreferredSurfaceFormat, Bool.and_eq_true, beq_iff_eq] at hpref
          simp [hpref.1, hpref.2]
      simp [pickSwapSurfaceFormat, hf, hfmt]
  · intro fmt rest hcons hnot
    have hf : available.find? isPreferredSurfaceFormat = none := by
      apply List.find?_eq_none.mpr
      intro x hx hpx
      apply hnot
      have hxeq : x = { format := eB8G8R8A8Srgb, colorSpace := eSrgbNonlinear } := by
        cases x with
        | mk f c =>
          simp only [isPreferredSurfaceFormat, Bool.and_eq_true, beq_iff_eq] at hpx
          simp [hpx.1, hpx.2]
      exact hxeq ▸ hx
    rw [hcons] at hf ⊢
    simp [pickSwapSurfaceFormat, hf]

/-- Witness for C5 at concrete inputs: a list containing the preferred entry
in second position, and a list without the preferred entry. -/
theorem pickSwapSurfaceFormat_spec_witness :
    pickSwapSurfaceFormat [{ format := 10, colorSpace := 3 }, { format := 50, colorSpace := 0 }]
      = { format := 50, colorSpace := 0 }
    ∧ pickSwapSurfaceFormat [{ format := 10, colorSpace := 3 }, { format := 44, colorSpace := 0 }]
      = { format := 10, colorSpace := 3 } :=
  ⟨(pickSwapSurfaceFormat_spec
      [{ format := 10, colorSpace := 3 }, { format := 50, colorSpace := 0 }]).1 (by decide),
   (pickSwapSurfaceFormat_spec
      [{ format := 10, colorSpace := 3 }, { format := 44, colorSpace := 0 }]).2
     { format := 10, colorSpace := 3 } [{ format := 44, colorSpace := 0 }] rfl (by decide)⟩

/-- C6: `pickSwapExtent` returns the current extent verbatim when its width is
not the undefined sentinel; on an undefined current extent it clamps the live
framebuffer size componentwise into [min, max]; in particular framebuffer
(1200, 50) with bounds (500,500)-(1000,1000) yields (1000, 500). -/
theorem pickSwapExtent_spec (framebuffer : Nat × Nat) (capabilities : SurfaceCapabilities) :
    (capabilities.currentExtent.width ≠ extentSentinel →
      pickSwapExtent framebuffer capabilities = capabilities.currentExtent)
    ∧ (capabilities.currentExtent.width = extentSentinel →
        capabilities.minImageExtent.width ≤ capabilities.maxImageExtent.width →
        capabilities.minImageExtent.height ≤ capabilities.maxImageExtent.height →
        pickSwapExtent framebuffer capabilities =
          { width := min (max framebuffer.1 capabilities.minImageExtent.width)
              capabilities.maxImageExtent.width,
            height := min (max framebuffer.2 capabilities.minImageExtent.height)
              capabilities.maxImageExtent.height })
    ∧ pickSwapExtent (1200, 50) capsUndefinedExtent = { width := 1000, height := 500 } := by
  refine ⟨fun h => by simp [pickSwapExtent, h], fun h hw hh => ?_, by decide⟩
  rw [pickSwapExtent, if_neg (by simp [h])]
  simp only [Extent2D.mk.injEq]
  constructor <;> (simp only [stdClamp]; split_ifs <;> omega)

/-- Witness for C6: the verbatim case at a defined extent, and the clamping
case at the undefined sentinel with framebuffer (1200, 50). -/
theorem pickSwapExtent_spec_witness :
    pickSwapExtent (7, 8) (capsMinMax 0 0) = (capsMinMax 0 0).currentExtent
    ∧ pickSwapExtent (1200, 50) capsUndefinedExtent =
        { width := min (max 1200 500) 1000, height := min (max 50 500) 1000 } :=
  ⟨(pickSwapExtent_spec (7, 8) (capsMinMax 0 0)).1 (by decide),
   (pickSwapExtent_spec (1200, 50) capsUndefinedExtent).2.1 (by decide) (by decide) (by decide)⟩

/-- C10: `pickSwapExtent` detects the undefined sentinel by the width
component alone: any capabilities value with width ≠ 0xFFFFFFFF is returned
verbatim — even with height = 0xFFFFFFFF, as the concrete conjunct shows —
and the framebuffer-derived clamped extent is used exactly when the width
equals 0xFFFFFFFF. -/
theorem pickSwapExtent_width_sentinel_only (framebuffer : Nat × Nat)
    (capabilities : SurfaceCapabilities) :
    (capabilities.currentExtent.width ≠ extentSentinel →
      pickSwapExtent framebuffer capabilities = capabilities.currentExtent)
    ∧ (capabilities.currentExtent.width = extentSentinel →
        pickSwapExtent framebuffer capabilities =
          { width := stdClamp framebuffer.1 capabilities.minImageExtent.width
              capabilities.maxImageExtent.width,
            height := stdClamp framebuffer.2 capabilities.minImageExtent.height
              capabilities.maxImageExtent.height })
    ∧ pickSwapExtent (7, 8) capsMixedExtent = { width := 300, height := extentSentinel } := by
  refine ⟨fun h => by simp [pickSwapExtent, h], fun h => ?_, by decide⟩
  rw [pickSwapExtent, if_neg (by simp [h])]

/-- Witness for C10: a current extent whose height is the sentinel but whose
width is not is returned verbatim. -/
theorem pickSwapExtent_width_sentinel_only_witness :
    pickSwapExtent (7, 8) capsMixedExtent = capsMixedExtent.currentExtent :=
  (pickSwapExtent_width_sentinel_only (7, 8) capsMixedExtent).1 (by decide)

/-- C2: `scoreDevice` is exactly zero for any candidate missing the minimum
API version, the geometry-shader feature, a graphics-capable queue family, or
any one required device extension, regardless of the device-type bonus or
image-dimension contribution. -/
theorem scoreDevice_zero_of_missing_requirement (device : PhysicalDevice)
    (h : device.properties.apiVersion < vkApiVersion14
        ∨ device.features.geometryShader = false
        ∨ (∀ family ∈ device.queueFamilies, family.queueFlags &&& eGraphicsFlag = 0)
        ∨ (∃ required ∈ deviceExtensions, required ∉ device.extensions)) :
    scoreDevice device = 0 := by
  simp only [scoreDevice]
  rcases h with h | h | h | h
  · simp [h]
  · simp [h]
  · have hall : (device.queueFamilies.all
        fun family => family.queueFlags &&& eGraphicsFlag == 0) = true := by
      simp only [List.all_eq_true, beq_iff_eq]
      exact h
    simp [hall]
  · have hany : (deviceExtensions.any
        fun required => device.extensions.all fun supported => supported != required) = true := by
      simp only [List.any_eq_true, List.all_eq_true, bne_iff_ne]
      obtain ⟨required, hreq, hnot⟩ := h
      exact ⟨required, hreq, fun supported hs heq => hnot (heq ▸ hs)⟩
    simp [hany]

/-- Witness for C2: a candidate lacking only the geometry-shader feature
scores zero. -/
theorem scoreDevice_zero_witness : scoreDevice deviceNoGeometry = 0 :=
  scoreDevice_zero_of_missing_requirement deviceNoGeometry (Or.inr (Or.inl (by decide)))

/-- C8 as stated is false: the score accumulates in a uint32_t, so for two
otherwise-identical fully-qualified discrete GPUs, the dimension
2^32 - 1000 makes the 1000-point bonus wrap the score to zero, scoring
strictly below the otherwise-identical device with the strictly smaller
dimension 2^32 - 1001. -/
theorem scoreDevice_overflow_counterexample :
    (mkDevice "gpu" (UINT32_MOD - 1001)).properties.limits.maxImageDimension2D
      < (mkDevice "gpu" (UINT32_MOD - 1000)).properties.limits.maxImageDimension2D
    ∧ scoreDevice (mkDevice "gpu" (UINT32_MOD - 1000))
        < scoreDevice (mkDevice "gpu" (UINT32_MOD - 1001))
    ∧ (mkDevice "gpu" (UINT32_MOD - 1001)).properties.deviceType
        = PhysicalDeviceType.discreteGpu
    ∧ (mkDevice "gpu" (UINT32_MOD - 1000)).properties.deviceType
        = PhysicalDeviceType.discreteGpu
    ∧ scoreDevice (mkDevice "gpu" (UINT32_MOD - 1000)) = 0 := by
  decide

/-- C8 amended: for two candidates identical except in their maximum 2D image
dimension — both discrete GPUs with all hard requirements met — the strictly
larger dimension scores strictly higher, provided the 1000-point discrete
bonus plus the larger dimension still fits in 32 bits. -/
theorem scoreDevice_dimension_monotone (device : PhysicalDevice) (d1 d2 : Nat)
    (hdisc : device.properties.deviceType = PhysicalDeviceType.discreteGpu)
    (hgeo : device.features.geometryShader = true)
    (hapi : vkApiVersion14 ≤ device.properties.apiVersion)
    (hqueue : ∃ family ∈ device.queueFamilies, family.queueFlags &&& eGraphicsFlag ≠ 0)
    (hext : ∀ required ∈ deviceExtensions, required ∈ device.extensions)
    (hlt : d1 < d2) (hfit : 1000 + d2 < UINT32_MOD) :
    scoreDevice (withDimension device d1) < scoreDevice (withDimension device d2) := by
  have hq : (device.queueFamilies.all
      fun family => family.queueFlags &&& eGraphicsFlag == 0) = false := by
    obtain ⟨family, hmem, hne⟩ := hqueue
    simp only [List.all_eq_false]
    exact ⟨family, hmem, by simpa [beq_iff_eq] using hne⟩
  have he : (deviceExtensions.any
      fun required => device.extensions.all fun supported => supported != required) = false := by
    simp only [List.any_eq_false]
    intro required hreq hall
    have := List.all_eq_true.mp hall required (hext required hreq)
    simp at this
  have hscore : ∀ d, 1000 + d < UINT32_MOD →
      scoreDevice (withDimension device d) = 1000 + d := by
    intro d hd
    simp only [scoreDevice, withDimension, hdisc, hgeo, hq, he, if_pos, Bool.false_eq_true,
      if_false, if_true]
    rw [if_neg (by omega), if_neg (by simp), Nat.mod_eq_of_lt hd]
  rw [hscore d1 (by omega), hscore d2 hfit]
  omega

/-- Witness for the amended C8 at concrete dimensions 10 < 20. -/
theorem scoreDevice_dimension_monotone_witness :
    scoreDevice (withDimension (mkDevice "gpu" 0) 10)
      < scoreDevice (withDimension (mkDevice "gpu" 0) 20) :=
  scoreDevice_dimension_monotone (mkDevice "gpu" 0) 10 20 (by decide) (by decide) (by decide)
    (by decide) (by decide) (by decide) (by decide)

/-- C9: the top-level entry point is the sole place where a setup failure is
observed: a failed run prints exactly its message to the error stream and
exits with code 1, while a normal run (window closed) prints nothing and
exits 0. -/
theorem mainEntry_spec (outcome : RunOutcome) :
    ((mainEntry outcome).code = EXIT_SUCCESS ↔ outcome = RunOutcome.success)
    ∧ ((mainEntry outcome).code = EXIT_FAILURE ↔ ∃ msg, outcome = RunOutcome.failure msg)
    ∧ (∀ msg, outcome = RunOutcome.failure msg → (mainEntry outcome).errStream = [msg])
    ∧ (outcome = RunOutcome.success → (mainEntry outcome).errStream = []) := by
  cases outcome <;> simp [mainEntry, EXIT_SUCCESS, EXIT_FAILURE]

/-- Witness for C9: a failing run exits with code 1 and its message on the
error stream; a successful run exits 0. -/
theorem mainEntry_spec_witness :
    (mainEntry (RunOutcome.failure "setup failed")).errStream = ["setup failed"]
    ∧ (mainEntry RunOutcome.success).code = EXIT_SUCCESS :=
  ⟨(mainEntry_spec (RunOutcome.failure "setup failed")).2.2.1 "setup failed" rfl,
   (mainEntry_spec RunOutcome.success).1.mpr rfl⟩

/-- Any index produced by `firstIdxFrom` lies in front of the end of the
scanned range. -/
theorem firstIdxFrom_lt (p : QueueFamily → Bool) :
    ∀ (families : List QueueFamily) (i j : Nat),
      firstIdxFrom p families i = some j → i ≤ j ∧ j < i + families.length := by
  intro families
  induction families with
  | nil => intro i j h; simp [firstIdxFrom] at h
  | cons family rest ih =>
    intro i j h
    simp only [firstIdxFrom] at h
    by_cases hp : p family
    · rw [if_pos hp] at h
      cases h
      simp
    · rw [if_neg hp] at h
      have := ih (i + 1) j h
      constructor <;> [omega; (simp only [List.length_cons]; omega)]

/-- Characterisation of the scan loop of `Renderer::createLogicalDevice`,
for an arbitrary suffix of the family list: a first combined family wins
outright; otherwise each sentinel-valued index is replaced by the first
index of a family satisfying its role, if any. -/
theorem findQueueLoop_char :
    ∀ (rest : List QueueFamily) (i maxIdx gfxIdx presIdx : Nat),
      i + rest.length = maxIdx →
      findQueueLoop rest i maxIdx gfxIdx presIdx =
        match firstIdxFrom (fun f => hasGraphics f && f.presentSupport) rest i with
        | some j => (j, j)
        | none =>
          ((if gfxIdx = maxIdx then (firstIdxFrom hasGraphics rest i).getD maxIdx else gfxIdx),
           (if presIdx = maxIdx then
              (firstIdxFrom (fun f => f.presentSupport) rest i).getD maxIdx
            else presIdx)) := by
  intro rest
  induction rest with
  | nil =>
    intro i maxIdx gfxIdx presIdx hlen
    simp only [findQueueLoop, firstIdxFrom]
    rcases Decidable.em (gfxIdx = maxIdx) with h1 | h1 <;>
      rcases Decidable.em (presIdx = maxIdx) with h2 | h2 <;>
      simp [h1, h2]
  | cons family rest ih =>
    intro i maxIdx gfxIdx presIdx hlen
    have hi : i ≠ maxIdx := by simp only [List.length_cons] at hlen; omega
    have hlen2 : (i + 1) + rest.length = maxIdx := by
      simp only [List.length_cons] at hlen; omega
    cases hg : hasGraphics family <;> cases hp : family.presentSupport
    · -- neither role: every branch condition is false
      simp only [findQueueLoop, firstIdxFrom, hg, hp, Bool.false_and, Bool.and_false,
        Bool.false_eq_true, if_false, Bool.and_self]
      exact ih (i + 1) maxIdx gfxIdx presIdx hlen2
    · -- present only
      simp only [findQueueLoop, firstIdxFrom, hg, hp, Bool.false_and, Bool.and_true,
        Bool.true_and, Bool.false_eq_true, if_false]
      by_cases hpi : presIdx = maxIdx
      · rw [if_pos (by simp [hpi]), ih (i + 1) maxIdx gfxIdx i hlen2]
        cases hfc : firstIdxFrom (fun f => hasGraphics f && f.presentSupport) rest (i + 1)
        · simp [hpi, hi]
        · simp
      · rw [if_neg (by simp [hpi]), ih (i + 1) maxIdx gfxIdx presIdx hlen2]
        cases hfc : firstIdxFrom (fun f => hasGraphics f && f.presentSupport) rest (i + 1)
        · simp [hpi]
        · simp
    · -- graphics only
      simp only [findQueueLoop, firstIdxFrom, hg, hp, Bool.and_false, Bool.true_and,
        Bool.false_eq_true, if_false]
      by_cases hgi : gfxIdx = maxIdx
      · rw [if_pos (by simp [hgi]), ih (i + 1) maxIdx i presIdx hlen2]
        cases hfc : firstIdxFrom (fun f => hasGraphics f && f.presentSupport) rest (i + 1)
        · simp [hgi, hi]
        · simp
      · rw [if_neg (by simp [hgi]), ih (i + 1) maxIdx gfxIdx presIdx hlen2]
        cases hfc : firstIdxFrom (fun f => hasGraphics f && f.presentSupport) rest (i + 1)
        · simp [hgi]
        · simp
    · -- combined family: loop breaks at index i
      simp [findQueueLoop, firstIdxFrom, hg, hp]

/-- C1: `selectQueueFamilies` scans families in index order and prefers the
first single family supporting both graphics and present; failing that it
independently records the first family satisfying each role; it fails with
the graphics-specific error when no graphics-capable family exists and with
the presentation-specific error when no present-capable family exists. The
closing conjuncts check the spec examples: family 0 present-only with family
1 graphics-only yields {graphics:1, present:0}, and a combined family at
index 2 is preferred, yielding {graphics:2, present:2}. -/
theorem selectQueueFamilies_spec :
    (∀ families : List QueueFamily,
      selectQueueFamilies families =
        match firstIdxFrom (fun f => hasGraphics f && f.presentSupport) families 0 with
        | some j => Except.ok (j, j)
        | none =>
          match firstIdxFrom hasGraphics families 0,
              firstIdxFrom (fun f => f.presentSupport) families 0 with
          | none, _ => Except.error QueueSelectionError.noGraphicsQueue
          | some _, none => Except.error QueueSelectionError.noPresentationQueue
          | some g, some p => Except.ok (g, p))
    ∧ selectQueueFamilies [presentOnlyFamily, graphicsOnlyFamily] = Except.ok (1, 0)
    ∧ selectQueueFamilies [graphicsOnlyFamily, presentOnlyFamily, combinedFamily]
        = Except.ok (2, 2) := by
  refine ⟨fun families => ?_, by decide, by decide⟩
  simp only [selectQueueFamilies,
    findQueueLoop_char families 0 families.length _ _ (by simp)]
  cases hfc : firstIdxFrom (fun f => hasGraphics f && f.presentSupport) families 0 with
  | some j =>
    have hj := (firstIdxFrom_lt _ families 0 j hfc).2
    have hjne : j ≠ families.length := by omega
    simp [hjne]
  | none =>
    cases hfg : firstIdxFrom hasGraphics families 0 with
    | none => simp
    | some g =>
      have hg := (firstIdxFrom_lt _ families 0 g hfg).2
      have hgne : g ≠ families.length := by omega
      cases hfp : firstIdxFrom (fun f => f.presentSupport) families 0 with
      | none => simp [hgne]
      | some p =>
        have hp := (firstIdxFrom_lt _ families 0 p hfp).2
        have hpne : p ≠ families.length := by omega
        simp [hgne, hpne]

/-- Every entry of `scoredInsert k v m` is the new entry or one of `m`. -/
theorem mem_scoredInsert (k : Nat) (v : PhysicalDevice) :
    ∀ (m : List (Nat × PhysicalDevice)) (kv : Nat × PhysicalDevice),
      kv ∈ scoredInsert k v m → kv = (k, v) ∨ kv ∈ m := by
  intro m
  induction m with
  | nil => intro kv h; simp [scoredInsert] at h; simp [h]
  | cons kv0 rest ih =>
    intro kv h
    simp only [scoredInsert] at h
    by_cases hk : k < kv0.1
    · rw [if_pos hk] at h
      rcases List.mem_cons.mp h with h | h
      · exact Or.inl h
      · exact Or.inr h
    · rw [if_neg hk] at h
      rcases List.mem_cons.mp h with h | h
      · exact Or.inr (List.mem_cons.mpr (Or.inl h))
      · rcases ih kv h with h | h
        · exact Or.inl h
        · exact Or.inr (List.mem_cons.mpr (Or.inr h))

/-- `scoredInsert` preserves the sortedness of the multimap's keys. -/
theorem keysSorted_scoredInsert (k : Nat) (v : PhysicalDevice) :
    ∀ m : List (Nat × PhysicalDevice), KeysSorted m → KeysSorted (scoredInsert k v m) := by
  intro m
  induction m with
  | nil => intro _; simp [scoredInsert, KeysSorted]
  | cons kv0 rest ih =>
    intro hs
    simp only [scoredInsert]
    by_cases hk : k < kv0.1
    · rw [if_pos hk]
      refine ⟨?_, hs⟩
      intro kv2 h2
      rcases List.mem_cons.mp h2 with h2 | h2
      · rw [h2]; omega
      · have := hs.1 kv2 h2
        omega
    · rw [if_neg hk]
      refine ⟨?_, ih hs.2⟩
      intro kv2 h2
      rcases mem_scoredInsert k v rest kv2 h2 with h2 | h2
      · rw [h2]; omega
      · exact hs.1 kv2 h2

/-- `scoredInsert` never produces the empty multimap. -/
theorem scoredInsert_ne_nil (k : Nat) (v : PhysicalDevice) :
    ∀ m : List (Nat × PhysicalDevice), scoredInsert k v m ≠ [] := by
  intro m
  cases m with
  | nil => simp [scoredInsert]
  | cons kv0 rest =>
    simp only [scoredInsert]
    by_cases hk : k < kv0.1
    · rw [if_pos hk]; simp
    · rw [if_neg hk]; simp

/-- On a key-sorted multimap, the last entry after an upper-bound insertion is
the new entry exactly when its key is at least the previous last key; this is
what `rbegin()` observes after `std::multimap::insert`. -/
theorem getLast?_scoredInsert (k : Nat) (v : PhysicalDevice) :
    ∀ m : List (Nat × PhysicalDevice), KeysSorted m →
      (scoredInsert k v m).getLast? =
        some (match m.getLast? with
          | none => (k, v)
          | some kv0 => if kv0.1 ≤ k then (k, v) else kv0) := by
  intro m
  induction m with
  | nil => intro _; simp [scoredInsert]
  | cons kv0 rest ih =>
    intro hs
    simp only [scoredInsert]
    by_cases hk : k < kv0.1
    · rw [if_pos hk]
      obtain ⟨last, hlast⟩ : ∃ last, (kv0 :: rest).getLast? = some last :=
        ⟨(kv0 :: rest).getLast (by simp), List.getLast?_eq_getLast _ _⟩
      have hmem := List.mem_of_mem_getLast? (hlast ▸ rfl : last ∈ (kv0 :: rest).getLast?)
      have hkey : kv0.1 ≤ last.1 := by
        rcases List.mem_cons.mp hmem with h | h
        · rw [h]
        · exact hs.1 last h
      rw [List.getLast?_cons_cons, hlast]
      simp only [hlast]
      rw [if_neg (by omega)]
    · rw [if_neg hk]
      cases rest with
      | nil =>
        simp only [scoredInsert]
        rw [List.getLast?_cons_cons]
        simp only [List.getLast?_singleton]
        rw [if_pos (by omega)]
      | cons kv1 rest2 =>
        obtain ⟨hd, tl, hins⟩ :
            ∃ hd tl, scoredInsert k v (kv1 :: rest2) = hd :: tl :=
          List.exists_cons_of_ne_nil (scoredInsert_ne_nil k v (kv1 :: rest2))
        rw [hins, List.getLast?_cons_cons, ← hins, ih hs.2, List.getLast?_cons_cons]

/-- Folding the device loop over the multimap and reading `rbegin()` computes
the same thing as the direct best-device fold `bestStep`. -/
theorem pickFold_getLast :
    ∀ (devices : List PhysicalDevice) (m : List (Nat × PhysicalDevice)), KeysSorted m →
      (devices.foldl pickStep m).getLast? = devices.foldl bestStep m.getLast? := by
  intro devices
  induction devices with
  | nil => intro m _; rfl
  | cons device rest ih =>
    intro m hs
    simp only [List.foldl_cons]
    by_cases hz : scoreDevice device = 0
    · rw [show pickStep m device = m from by simp [pickStep, hz],
        show bestStep m.getLast? device = m.getLast? from by simp [bestStep, hz]]
      exact ih m hs
    · rw [show pickStep m device = scoredInsert (scoreDevice device) device m from by
        simp [pickStep, hz]]
      rw [ih (scoredInsert (scoreDevice device) device m) (keysSorted_scoredInsert _ _ m hs)]
      rw [getLast?_scoredInsert _ _ m hs]
      congr 1
      simp only [bestStep, hz, if_false]
      cases m.getLast? with
      | none => rfl
      | some kv0 => by_cases hle : kv0.1 ≤ scoreDevice device <;> simp [hle]

/-- `pickPhysicalDevice` on a non-empty enumeration is determined by the
reference fold `selectBestDevice`. -/
theorem pickPhysicalDevice_eq_selectBest (devices : List PhysicalDevice)
    (h : devices ≠ []) :
    pickPhysicalDevice devices =
      match selectBestDevice devices with
      | none => Except.error PickDeviceError.noSuitableDevice
      | some kv => Except.ok kv.2 := by
  cases devices with
  | nil => exact absurd rfl h
  | cons device rest =>
    simp only [pickPhysicalDevice, selectBestDevice]
    rw [pickFold_getLast (device :: rest) [] trivial]
    rfl

/-- The best-device fold yields nothing exactly when it started with nothing
and every device scores zero. -/
theorem bestFold_eq_none :
    ∀ (devices : List PhysicalDevice) (acc : Option (Nat × PhysicalDevice)),
      devices.foldl bestStep acc = none ↔ acc = none ∧ ∀ d ∈ devices, scoreDevice d = 0 := by
  intro devices
  induction devices with
  | nil => intro acc; simp
  | cons device rest ih =>
    intro acc
    simp only [List.foldl_cons]
    rw [ih (bestStep acc device)]
    have hstep : bestStep acc device = none ↔ acc = none ∧ scoreDevice device = 0 := by
      simp only [bestStep]
      by_cases hz : scoreDevice device = 0
      · simp [hz]
      · rw [if_neg hz]
        cases acc with
        | none => simp [hz]
        | some kv0 =>
          by_cases hle : kv0.1 ≤ scoreDevice device <;> simp [hle]
    rw [hstep]
    constructor
    · rintro ⟨⟨h1, h2⟩, h3⟩
      exact ⟨h1, by simpa [h2] using h3⟩
    · rintro ⟨h1, h2⟩
      refine ⟨⟨h1, h2 device (by simp)⟩, fun d hd => h2 d (by simp [hd])⟩

/-- The key of the best-device fold never decreases. -/
theorem bestFold_mono :
    ∀ (devices : List PhysicalDevice) (s0 : Nat) (d0 : PhysicalDevice)
      (s : Nat) (d : PhysicalDevice),
      devices.foldl bestStep (some (s0, d0)) = some (s, d) → s0 ≤ s := by
  intro devices
  induction devices with
  | nil => intro s0 d0 s d h; cases h; omega
  | cons device rest ih =>
    intro s0 d0 s d h
    simp only [List.foldl_cons] at h
    by_cases hz : scoreDevice device = 0
    · rw [show bestStep (some (s0, d0)) device = some (s0, d0) from by simp [bestStep, hz]] at h
      exact ih s0 d0 s d h
    · by_cases hle : s0 ≤ scoreDevice device
      · rw [show bestStep (some (s0, d0)) device = some (scoreDevice device, device) from by
          simp [bestStep, hz, hle]] at h
        exact le_trans hle (ih _ _ s d h)
      · rw [show bestStep (some (s0, d0)) device = some (s0, d0) from by
          simp [bestStep, hz, hle]] at h
        exact ih s0 d0 s d h

/-- What a successful best-device fold returns: either the untouched
accumulator, or a member of the list with its own non-zero score; in both
cases the result's key bounds every score in the list. -/
theorem bestFold_some_spec :
    ∀ (devices : List PhysicalDevice) (acc : Option (Nat × PhysicalDevice))
      (s : Nat) (d : PhysicalDevice),
      devices.foldl bestStep acc = some (s, d) →
      (acc = some (s, d) ∨ (d ∈ devices ∧ s = scoreDevice d ∧ s ≠ 0))
      ∧ ∀ d2 ∈ devices, scoreDevice d2 ≤ s := by
  intro devices
  induction devices with
  | nil => intro acc s d h; exact ⟨Or.inl h, by simp⟩
  | cons device rest ih =>
    intro acc s d h
    simp only [List.foldl_cons] at h
    obtain ⟨hsrc, hbound⟩ := ih (bestStep acc device) s d h
    have hhead : scoreDevice device ≤ s := by
      by_cases hz : scoreDevice device = 0
      · omega
      · have hsome : ∃ s1 d1, bestStep acc device = some (s1, d1) ∧ scoreDevice device ≤ s1 := by
          simp only [bestStep, hz, if_false]
          cases acc with
          | none => exact ⟨scoreDevice device, device, rfl, le_refl _⟩
          | some kv0 =>
            by_cases hle : kv0.1 ≤ scoreDevice device
            · exact ⟨scoreDevice device, device, by simp [hle], le_refl _⟩
            · exact ⟨kv0.1, kv0.2, by simp [hle], by omega⟩
        obtain ⟨s1, d1, hstep, hs1⟩ := hsome
        rw [hstep] at h
        exact le_trans hs1 (bestFold_mono rest s1 d1 s d h)
    refine ⟨?_, fun d2 hd2 => ?_⟩
    · rcases hsrc with hsrc | hsrc
      · -- the step on the head produced the final answer
        by_cases hz : scoreDevice device = 0
        · rw [show bestStep acc device = acc from by simp [bestStep, hz]] at hsrc
          exact Or.inl hsrc
        · simp only [bestStep, hz, if_false] at hsrc
          cases acc with
          | none =>
            cases hsrc
            exact Or.inr ⟨by simp, rfl, hz⟩
          | some kv0 =>
            have hsrc2 : (if kv0.1 ≤ scoreDevice device then some (scoreDevice device, device)
                else some kv0) = some (s, d) := hsrc
            by_cases hle : kv0.1 ≤ scoreDevice device
            · rw [if_pos hle] at hsrc2
              cases hsrc2
              exact Or.inr ⟨by simp, rfl, hz⟩
            · rw [if_neg hle] at hsrc2
              exact Or.inl (by rw [hsrc2])
      · exact Or.inr ⟨List.mem_cons.mpr (Or.inr hsrc.1), hsrc.2⟩
    · rcases List.mem_cons.mp hd2 with hd2 | hd2
      · rw [hd2]; exact hhead
      · exact hbound d2 hd2

/-- Once the accumulator strictly dominates every remaining score, the
best-device fold keeps it. -/
theorem bestFold_absorb :
    ∀ (devices : List PhysicalDevice) (s : Nat) (d : PhysicalDevice),
      (∀ d2 ∈ devices, scoreDevice d2 < s) →
      devices.foldl bestStep (some (s, d)) = some (s, d) := by
  intro devices
  induction devices with
  | nil => intro s d _; rfl
  | cons device rest ih =>
    intro s d hlt
    simp only [List.foldl_cons]
    have hd : scoreDevice device < s := hlt device (by simp)
    by_cases hz : scoreDevice device = 0
    · rw [show bestStep (some (s, d)) device = some (s, d) from by simp [bestStep, hz]]
      exact ih s d fun d2 h2 => hlt d2 (by simp [h2])
    · rw [show bestStep (some (s, d)) device = some (s, d) from by
        simp [bestStep, hz]; omega]
      exact ih s d fun d2 h2 => hlt d2 (by simp [h2])

/-- If index `j` is the last index attaining the (non-zero) maximum score,
the best-device fold returns that device, from any accumulator whose key
does not exceed that maximum. -/
theorem bestFold_last_argmax :
    ∀ (devices : List PhysicalDevice) (j : Nat) (hj : j < devices.length)
      (acc : Option (Nat × PhysicalDevice)),
      scoreDevice devices[j] ≠ 0 →
      (∀ (k : Nat) (hk : k < devices.length), scoreDevice devices[k] ≤ scoreDevice devices[j]) →
      (∀ (k : Nat) (hk : k < devices.length), j < k →
        scoreDevice devices[k] < scoreDevice devices[j]) →
      (∀ kv, acc = some kv → kv.1 ≤ scoreDevice devices[j]) →
      devices.foldl bestStep acc = some (scoreDevice devices[j], devices[j]) := by
  intro devices
  induction devices with
  | nil => intro j hj; simp at hj
  | cons device rest ih =>
    intro j hj acc hnz hmax hlast hacc
    cases j with
    | zero =>
      simp only [List.getElem_cons_zero] at hnz hmax hlast ⊢
      simp only [List.foldl_cons]
      have hstep : bestStep acc device = some (scoreDevice device, device) := by
        simp only [bestStep, hnz, if_false]
        cases acc with
        | none => rfl
        | some kv0 =>
          show (if kv0.1 ≤ scoreDevice device then some (scoreDevice device, device)
              else some kv0) = some (scoreDevice device, device)
          rw [if_pos (show kv0.1 ≤ scoreDevice device from hacc kv0 rfl)]
      rw [hstep]
      apply bestFold_absorb
      intro d2 h2
      obtain ⟨k, hk, hget⟩ := List.mem_iff_getElem.mp h2
      have := hlast (k + 1) (by simpa using Nat.succ_lt_succ hk) (Nat.succ_pos k)
      simpa [hget] using this
    | succ j0 =>
      have hj0 : j0 < rest.length := by simpa using hj
      simp only [List.getElem_cons_succ] at hnz hmax hlast ⊢
      simp only [List.foldl_cons]
      apply ih j0 hj0 (bestStep acc device) hnz
      · intro k hk
        have := hmax (k + 1) (by simpa using Nat.succ_lt_succ hk)
        simpa using this
      · intro k hk hjk
        have := hlast (k + 1) (by simpa using Nat.succ_lt_succ hk) (by omega)
        simpa using this
      · intro kv hkv
        have hd : scoreDevice device ≤ scoreDevice rest[j0] := by
          have := hmax 0 (by simp)
          simpa using this
        by_cases hz : scoreDevice device = 0
        · rw [show bestStep acc device = acc from by simp [bestStep, hz]] at hkv
          exact hacc kv hkv
        · simp only [bestStep, hz, if_false] at hkv
          cases acc with
          | none => cases hkv; exact hd
          | some kv0 =>
            have hkv2 : (if kv0.1 ≤ scoreDevice device then some (scoreDevice device, device)
                else some kv0) = some kv := hkv
            by_cases hle : kv0.1 ≤ scoreDevice device
            · rw [if_pos hle] at hkv2
              cases hkv2
              exact hd
            · rw [if_neg hle] at hkv2
              cases hkv2
              exact hacc _ rfl

/-- C3 as stated is false: for two distinct candidates sharing the same
non-zero maximum score, `pickPhysicalDevice` returns the *second* one — the
multimap inserts an equal key after the existing entries and `rbegin()` reads
the last entry, so ties resolve to the last candidate in enumeration order,
not the first. -/
theorem pickPhysicalDevice_tie_counterexample :
    scoreDevice (mkDevice "gpuA" 100) = scoreDevice (mkDevice "gpuB" 100)
    ∧ scoreDevice (mkDevice "gpuA" 100) ≠ 0
    ∧ pickPhysicalDevice [mkDevice "gpuA" 100, mkDevice "gpuB" 100]
        = Except.ok (mkDevice "gpuB" 100)
    ∧ mkDevice "gpuB" 100 ≠ mkDevice "gpuA" 100 :=
  ⟨by decide, by decide, by decide, by decide⟩

/-- C3 amended: when multiple candidates share the maximum non-zero score,
`pickPhysicalDevice` deterministically picks the *last* such candidate in
enumeration order: if `j` is the last index attaining the maximum (non-zero)
score, the device at `j` is returned. -/
theorem pickPhysicalDevice_tiebreak_last (devices : List PhysicalDevice) (j : Nat)
    (hj : j < devices.length)
    (hnz : scoreDevice devices[j] ≠ 0)
    (hmax : ∀ (k : Nat) (hk : k < devices.length),
      scoreDevice devices[k] ≤ scoreDevice devices[j])
    (hlast : ∀ (k : Nat) (hk : k < devices.length), j < k →
      scoreDevice devices[k] < scoreDevice devices[j]) :
    pickPhysicalDevice devices = Except.ok devices[j] := by
  have hne : devices ≠ [] := by
    intro h
    rw [h] at hj
    simp at hj
  rw [pickPhysicalDevice_eq_selectBest devices hne]
  rw [show selectBestDevice devices = some (scoreDevice devices[j], devices[j]) from
    bestFold_last_argmax devices j hj none hnz hmax hlast (fun kv h => by cases h)]

/-- Witness for the amended C3: with two equally scored devices the second is
selected. -/
theorem pickPhysicalDevice_tiebreak_last_witness :
    pickPhysicalDevice [mkDevice "gpuA" 100, mkDevice "gpuB" 100]
      = Except.ok (mkDevice "gpuB" 100) := by
  apply pickPhysicalDevice_tiebreak_last
    [mkDevice "gpuA" 100, mkDevice "gpuB" 100] 1 (by decide) (by decide)
  · intro k hk
    simp only [List.length_cons, List.length_nil] at hk
    interval_cases k <;>
      (simp only [List.getElem_cons_zero, List.getElem_cons_succ]; decide)
  · intro k hk hlt
    simp only [List.length_cons, List.length_nil] at hk
    omega

/-- C4 as stated is false in one respect: on an *empty* candidate set the
code fails before scoring with the distinct "No physical devices available"
error, not the "No suitable physical device available" one. -/
theorem pickPhysicalDevice_empty_counterexample :
    pickPhysicalDevice [] = Except.error PickDeviceError.noPhysicalDevices
    ∧ PickDeviceError.noPhysicalDevices ≠ PickDeviceError.noSuitableDevice :=
  ⟨rfl, by decide⟩

/-- C4 amended: an empty candidate set fails with the "no physical devices"
error; a non-empty set in which every candidate scores zero fails with the
"no suitable device" error; and a returned candidate always has a non-zero
score that bounds every candidate's score. -/
theorem pickPhysicalDevice_selection_spec (devices : List PhysicalDevice) :
    (devices = [] →
      pickPhysicalDevice devices = Except.error PickDeviceError.noPhysicalDevices)
    ∧ (devices ≠ [] → (∀ d ∈ devices, scoreDevice d = 0) →
        pickPhysicalDevice devices = Except.error PickDeviceError.noSuitableDevice)
    ∧ (∀ d, pickPhysicalDevice devices = Except.ok d →
        scoreDevice d ≠ 0 ∧ d ∈ devices ∧ ∀ d2 ∈ devices, scoreDevice d2 ≤ scoreDevice d) := by
  refine ⟨fun h => by rw [h]; rfl, fun hne hz => ?_, fun d hd => ?_⟩
  · rw [pickPhysicalDevice_eq_selectBest devices hne,
      show selectBestDevice devices = none from (bestFold_eq_none devices none).mpr ⟨rfl, hz⟩]
  · by_cases hemp : devices = []
    · rw [hemp] at hd
      exact Except.noConfusion
        (show (Except.error PickDeviceError.noPhysicalDevices :
          Except PickDeviceError PhysicalDevice) = Except.ok d from hd)
    · rw [pickPhysicalDevice_eq_selectBest devices hemp] at hd
      cases hsb : selectBestDevice devices with
      | none =>
        rw [hsb] at hd
        exact Except.noConfusion
          (show (Except.error PickDeviceError.noSuitableDevice :
            Except PickDeviceError PhysicalDevice) = Except.ok d from hd)
      | some kv =>
        rw [hsb] at hd
        have hkv : kv.2 = d := by
          have hd2 : Except.ok kv.2 = (Except.ok d : Except PickDeviceError PhysicalDevice) := hd
          injection hd2
        obtain ⟨hsrc, hbound⟩ :=
          bestFold_some_spec devices none kv.1 kv.2
            (show devices.foldl bestStep none = some (kv.1, kv.2) from hsb)
        rcases hsrc with hsrc | ⟨hmem, hkey, hnz⟩
        · cases hsrc
        · refine ⟨?_, ?_, ?_⟩
          · rw [← hkv, ← hkey]
            exact hnz
          · rw [← hkv]
            exact hmem
          · intro d2 hd2
            rw [← hkv, ← hkey]
            exact hbound d2 hd2

/-- Witness for the amended C4: a single zero-scoring candidate produces the
"no suitable device" error. -/
theorem pickPhysicalDevice_selection_spec_witness :
    pickPhysicalDevice [deviceNoGeometry] = Except.error PickDeviceError.noSuitableDevice :=
  (pickPhysicalDevice_selection_spec [deviceNoGeometry]).2.1 (by decide) (by decide)

end Graphics
